import Mathlib

/-!
Verification development for the react-capnweb repository.

The definitions below are a shallow embedding, translated directly from the
TypeScript sources:
  * `defaultBackoffStrategy`           — src/websocket transport (part_010, lines 108-112)
  * the promise result cache           — shared hooks core (part_003, lines 78-160)
  * the connection lifecycle manager   — src/websocket transport (part_010) combined
                                         with `createCapnWebHooksWithLifecycle`
                                         (src/core.tsx, lines 204-296)

JavaScript numbers are modelled as ℚ where fractional values matter (delays,
jitter) and as Nat where the source only ever holds integers (counters,
timestamps, identities).  Promises and RPC sessions are modelled by numeric
identities; invoking a factory / disposing a session is recorded in explicit
logs so that "called exactly once" style properties are statable.
-/

namespace ReactCapnweb

/-! ## Backoff policy (part_010 lines 108-112)

```ts
function defaultBackoffStrategy(retryCount: number): number {
  const baseDelay = Math.min(1000 * Math.pow(2, retryCount - 1), 30000);
  const jitter = Math.random() * 1000;
  return baseDelay + jitter;
}
```

`Math.random()` is modelled by an explicit parameter `r ∈ [0, 1)`; the jitter
is then `r * 1000 ∈ [0, 1000)`.  `Math.pow(2, retryCount - 1)` is an exact
power of two for every integer exponent, including negative ones, so it is
modelled with `zpow` over ℚ (faithful even at `retryCount = 0`). -/

def defaultBackoffStrategy (retryCount : Nat) (r : ℚ) : ℚ :=
  min (1000 * (2 : ℚ) ^ ((retryCount : ℤ) - 1)) 30000 + r * 1000

/-! ## Result cache (part_003 lines 78-160)

```ts
type PromiseTracker = {
  status: "pending" | "resolved" | "rejected";
  promise: Promise<any>;
  timestamp: number;
};
const promiseCache = new Map<string, PromiseTracker>();
const STALE_PROMISE_MS = 60000;
const CLEANUP_INTERVAL_MS = 10000;
```

The `Map` is an association list with at most one binding per key; `set`,
`get` and `delete` are translated below.  A promise object is identified by
the Nat that was fresh when it was created (`nextPromise`); `factoryLog`
records every invocation of the miss-path factory `fn(api)`. -/

inductive PStatus
  | pending
  | resolved
  | rejected
deriving DecidableEq, Repr

structure Tracker where
  status : PStatus
  promise : Nat
  timestamp : Nat
deriving DecidableEq, Repr

def findEntry (key : String) : List (String × Tracker) → Option Tracker
  | [] => none
  | (k, v) :: rest => if k = key then some v else findEntry key rest

def setEntry (key : String) (v : Tracker) : List (String × Tracker) → List (String × Tracker)
  | [] => [(key, v)]
  | (k, w) :: rest => if k = key then (key, v) :: rest else (k, w) :: setEntry key v rest

def eraseEntry (key : String) : List (String × Tracker) → List (String × Tracker)
  | [] => []
  | (k, w) :: rest => if k = key then eraseEntry key rest else (k, w) :: eraseEntry key rest

def STALE_PROMISE_MS : Nat := 60000

def CLEANUP_INTERVAL_MS : Nat := 10000

structure CacheState where
  entries : List (String × Tracker)
  nextPromise : Nat
  factoryLog : List String
deriving Repr

/-- ```ts
function cleanCache(cacheKey: string, deletePending: boolean = false) {
  const val = promiseCache.get(cacheKey);
  if (deletePending || val?.status !== "pending") {
    promiseCache.delete(cacheKey);
  }
}
```
When the key is absent, `val?.status` is `undefined`, distinct from `"pending"`, and the
(no-op) delete runs, so the absent case deletes as well. -/
def cleanCache (s : CacheState) (cacheKey : String) (deletePending : Bool := false) : CacheState :=
  let del :=
    deletePending ||
      (match findEntry cacheKey s.entries with
        | some val => decide (val.status ≠ .pending)
        | none => true)
  if del then { s with entries := eraseEntry cacheKey s.entries } else s

/-- ```ts
function cleanStalePromises() {
  const now = Date.now();
  for (const [key, tracker] of promiseCache.entries()) {
    if (tracker.status !== "pending" && now - tracker.timestamp > STALE_PROMISE_MS) {
      promiseCache.delete(key);
    }
  }
}
```
`now - tracker.timestamp` is non-negative whenever `now ≥ timestamp` (the
normal case, since `timestamp` was a past `Date.now()`); for `now <
timestamp` the JS difference is negative and the comparison is false, which
Nat truncated subtraction reproduces (`0 > 60000` is false). -/
def cleanStalePromises (s : CacheState) (now : Nat) : CacheState :=
  { s with
    entries :=
      s.entries.filter fun p =>
        !(decide (p.2.status ≠ .pending) && decide (now - p.2.timestamp > STALE_PROMISE_MS)) }

/-- The miss/hit path of `useNamedPromise` (part_003 lines 110-136), with the
factory allowed to throw synchronously (`factoryThrows = true` models a
`fn(api)` call that throws before returning a promise):

```ts
let prom = promiseCache.get(currCacheKey)?.promise;
if (!prom) {
  prom = Promise.resolve(fn(api));
  const promiseStatus: PromiseTracker = {
    status: "pending", promise: prom, timestamp: Date.now(),
  };
  prom.then(...); prom.catch(...);
  promiseCache.set(currCacheKey, promiseStatus);
}
return use(prom);
```

Result `none` means the call threw synchronously to the caller (the throw in
`fn(api)` aborts the function before `promiseCache.set` runs); `some p`
returns promise `p`. -/
def useNamedPromiseLookup (s : CacheState) (currCacheKey : String) (factoryThrows : Bool)
    (now : Nat) : Option Nat × CacheState :=
  match findEntry currCacheKey s.entries with
  | some tracker => (some tracker.promise, s)
  | none =>
      if factoryThrows then
        (none, { s with factoryLog := s.factoryLog ++ [currCacheKey] })
      else
        let p := s.nextPromise
        (some p,
          { entries := setEntry currCacheKey ⟨.pending, p, now⟩ s.entries,
            nextPromise := p + 1,
            factoryLog := s.factoryLog ++ [currCacheKey] })

/-- The non-throwing lookup used by `useCapnWeb` / `useCapnWebQuery`. -/
def lookupCache (s : CacheState) (currCacheKey : String) (now : Nat) : Nat × CacheState :=
  match findEntry currCacheKey s.entries with
  | some tracker => (tracker.promise, s)
  | none =>
      let p := s.nextPromise
      (p,
        { entries := setEntry currCacheKey ⟨.pending, p, now⟩ s.entries,
          nextPromise := p + 1,
          factoryLog := s.factoryLog ++ [currCacheKey] })

/-! ### Cache keys

`useCapnWeb` derives `JSON.stringify([apiName, ...args])`; `useCapnWebQuery`
derives `JSON.stringify(["!" + operationName, ...deps])` (part_003 lines
143 and 154).  Arguments occurring in the claims are strings and integers,
so JSON values are modelled by that fragment. -/

inductive JVal
  | str (v : String)
  | num (v : Int)
deriving DecidableEq, Repr

def JVal.encode : JVal → String
  | .str v => "\"" ++ v ++ "\""
  | .num v => toString v

def jsonStringifyArray (items : List JVal) : String :=
  "[" ++ String.intercalate "," (items.map JVal.encode) ++ "]"

def useCapnWebKey (apiName : String) (args : List JVal) : String :=
  jsonStringifyArray (JVal.str apiName :: args)

def useCapnWebQueryKey (operationName : String) (deps : List JVal) : String :=
  jsonStringifyArray (JVal.str ("!" ++ operationName) :: deps)

/-! ## Connection lifecycle manager

Shallow embedding of the closure state of `initCapnWebSocket` (part_010,
lines 169-392) combined with the closure state of
`createCapnWebHooksWithLifecycle` (src/core.tsx, lines 204-296), wired as in
part_010 line 386:
`createCapnWebHooksWithLifecycle<T>(useCapnWebStub, close)` — i.e. the
transport-local `useCapnWebStub` is the `sessionFactory` of the core and the
transport `close` is the `onClose` of the core.

Sessions created by `newWebSocketRpcSession` are identified by consecutive
Nats (`sessionsCreated` counts creations); `disposeLog` records every
`disposeSession` invocation that actually reached `sess[Symbol.dispose]()`,
in order.  `transitions` records every `setConnectionState` call as a pair
(previous state, new state); each entry is exactly one synchronous
notification round to the state listeners.  The `WebSocket` object currently
held is described by `wsOpen` (its open event fired), `wsClosing`
(`ws.close()` was called on it), `wsCloseDelivered` (its close event fired),
and `currentWsSome` (the `currentWs` variable is non-null).  Delays are
whatever `opts.backoffStrategy` returns, kept abstract as `Config.backoff`. -/

inductive ConnState
  | connecting (attempt : Nat)
  | connected
  | reconnecting (attempt : Nat) (nextRetryMs : ℚ)
  | disconnected (reason : Option String)
  | closed
deriving DecidableEq, Repr

def ConnState.isClosed : ConnState → Bool
  | .closed => true
  | _ => false

def ConnState.isReconn : ConnState → Bool
  | .reconnecting _ _ => true
  | _ => false

def ConnState.isDisconnected : ConnState → Bool
  | .disconnected _ => true
  | _ => false

structure Config where
  retries : Nat
  backoff : Nat → ℚ

/-- Default `retries` from `defaultOptions` (part_010 line 126). -/
def defaultRetries : Nat := 10

structure MState where
  -- part_010 closure variables
  retryCount : Nat
  isReconnecting : Bool
  reconnectTimeout : Bool    -- a reconnect setTimeout is pending
  connectionTimeout : Bool   -- the connect-timeout setTimeout is pending
  connState : ConnState
  tSession : Nat             -- part_010 `session`
  sessionsCreated : Nat
  currentWsSome : Bool
  wsOpen : Bool
  wsClosing : Bool
  wsCloseDelivered : Bool
  -- core.tsx closure variables
  cSession : Option Nat      -- core `session`
  isClosedCore : Bool        -- core `isClosed`
  -- effect logs
  transitions : List (ConnState × ConnState)
  scheduledDelays : List ℚ
  disposeLog : List Nat
  onConnectedCount : Nat
  onDisconnectedCount : Nat
  onReconnectingCalls : List Nat
  onReconnectFailedCount : Nat
deriving Repr

/-- `setConnectionState`: store the new state and notify every listener
(one notification round, recorded as one `transitions` entry). -/
def setCS (s : MState) (n : ConnState) : MState :=
  { s with connState := n, transitions := s.transitions ++ [(s.connState, n)] }

/-- Which consumer-supplied lifecycle callbacks throw when invoked.
`options.onX` calls in part_010 are NOT wrapped in try/catch, so a throwing
callback aborts the rest of the enclosing handler. -/
structure CbThrows where
  onConnected : Bool
  onDisconnected : Bool
  onReconnecting : Bool
  onReconnectFailed : Bool

def noThrows : CbThrows := ⟨false, false, false, false⟩

/-- `handleClose` (part_010 lines 203-268), with exception semantics for the
consumer callbacks: the second component is `true` iff an exception escaped
the handler (aborting all statements after the throwing call).

```ts
function handleClose(_event: CloseEvent) {
  if (connectionState.status === "closed") return;
  if (connectionTimeout) { clearTimeout(connectionTimeout); connectionTimeout = null; }
  if (isReconnecting) return;
  setConnectionState({ status: "disconnected" });
  if (options.onDisconnected) options.onDisconnected();
  if (retryCount < opts.retries) {
    isReconnecting = true;
    retryCount++;
    const delay = opts.backoffStrategy(retryCount);
    setConnectionState({ status: "reconnecting", attempt: retryCount, nextRetryMs: delay });
    if (options.onReconnecting) options.onReconnecting(retryCount);
    reconnectTimeout = setTimeout(() => { ... }, delay);
  } else {
    setConnectionState({ status: "disconnected", reason: "Max retries reached" });
    if (options.onReconnectFailed) options.onReconnectFailed();
  }
}
``` -/
def handleCloseE (cfg : Config) (cb : CbThrows) (s : MState) : MState × Bool :=
  if s.connState = .closed then (s, false)
  else
    let s := { s with connectionTimeout := false }
    if s.isReconnecting then (s, false)
    else
      let s := setCS s (.disconnected none)
      let s := { s with onDisconnectedCount := s.onDisconnectedCount + 1 }
      if cb.onDisconnected then (s, true)
      else if s.retryCount < cfg.retries then
        let rc := s.retryCount + 1
        let delay := cfg.backoff rc
        let s := { s with isReconnecting := true, retryCount := rc }
        let s := setCS s (.reconnecting rc delay)
        let s := { s with onReconnectingCalls := s.onReconnectingCalls ++ [rc] }
        if cb.onReconnecting then (s, true)
        else
          ({ s with reconnectTimeout := true, scheduledDelays := s.scheduledDelays ++ [delay] },
            false)
      else
        let s := setCS s (.disconnected (some "Max retries reached"))
        let s := { s with onReconnectFailedCount := s.onReconnectFailedCount + 1 }
        (s, cb.onReconnectFailed)

def handleClose (cfg : Config) (s : MState) : MState :=
  (handleCloseE cfg noThrows s).1

/-- `initWebsocket` (part_010 lines 270-330), together with the assignment at
the call site `session = initWebsocket()`:
creates a new WebSocket and stores it in `currentWs`, transitions to
`connecting` (`attempt: retryCount || 0` equals `retryCount` since
`retryCount` is a non-negative integer), arms the connect-timeout and binds a
fresh RPC session. -/
def initWebsocket (s : MState) : MState :=
  let s := { s with
    currentWsSome := true, wsOpen := false, wsClosing := false, wsCloseDelivered := false }
  let s := setCS s (.connecting s.retryCount)
  let s := { s with connectionTimeout := true }
  { s with tSession := s.sessionsCreated, sessionsCreated := s.sessionsCreated + 1 }

/-- The "open" listener (part_010 lines 290-306): reset the retry counter,
cancel the connect-timeout, transition to `connected`, invoke `onConnected`. -/
def handleOpen (s : MState) : MState :=
  let s := { s with retryCount := 0, connectionTimeout := false, wsOpen := true }
  let s := setCS s .connected
  { s with onConnectedCount := s.onConnectedCount + 1 }

/-- The reconnect timer body (part_010 lines 249-255):
`isReconnecting = false; reconnectTimeout = null; disposeSession(session);
session = initWebsocket();`. -/
def reconnectTimerFire (s : MState) : MState :=
  let s := { s with isReconnecting := false, reconnectTimeout := false }
  let s := { s with disposeLog := s.disposeLog ++ [s.tSession] }
  initWebsocket s

/-- Transport `close` (part_010 lines 332-357): cancel both timers, close and
null out the WebSocket, dispose — but do not null — the current session,
transition to `closed`. -/
def transportClose (s : MState) : MState :=
  let s := { s with reconnectTimeout := false, connectionTimeout := false }
  let s :=
    if s.currentWsSome then { s with wsClosing := true, currentWsSome := false } else s
  let s := { s with disposeLog := s.disposeLog ++ [s.tSession] }
  setCS s .closed

/-- Core `close` (src/core.tsx lines 237-257), with `onClose` being the
transport close: idempotence guard on `isClosed`, then transport cleanup,
then dispose of the core session binding (a no-op when it is still `null`),
then `notifyListeners()` (which re-delivers the unchanged, non-nulled
`session` binding to every mounted provider). -/
def coreClose (s : MState) : MState :=
  if s.isClosedCore then s
  else
    let s := { s with isClosedCore := true }
    let s := transportClose s
    match s.cSession with
    | some k => { s with disposeLog := s.disposeLog ++ [k] }
    | none => s

/-- First mount of a `CapnWebProvider` (src/core.tsx lines 259-268): the
`useState` initializer runs `if (!session && !isClosed) session =
initSession();` where `initSession` invokes the `sessionFactory`, i.e. the
`useCapnWebStub` of the transport, which returns the current transport
session. -/
def providerMount (s : MState) : MState :=
  if s.cSession = none ∧ s.isClosedCore = false then { s with cSession := some s.tSession } else s

/-- The value consumers read through the provider context
(`useCapnWebApi` / the context-based `useCapnWebStub`): the `currentSession`
React state of the provider is initialized from the core `session` binding
and only ever re-set to that same binding by `notifyListeners`, so it always
equals the core binding. `none` makes the hook throw the
"must be used within a CapnWebProvider" error. -/
def contextValue (s : MState) : Option Nat :=
  s.cSession

/-- The transport-local `useCapnWebStub` (part_010 lines 382-384): re-reads
the mutable `session` closure variable. -/
def transportStub (s : MState) : Nat :=
  s.tSession

/-! ### Event-driven execution

Events are the asynchronous turns of the single-threaded model: WebSocket
open/close delivery, the two timers, provider mount, and the public
`close()`.  Guards make an event that cannot currently occur a no-op (a
WebSocket delivers `open`/`close` at most once, `open` never after `close()`
was called on it, a timer only fires while armed, core `close` is guarded by
`isClosed`). -/

inductive Event
  | wsOpenEvt
  | wsCloseEvt
  | connTimeoutFire
  | reconnectTimer
  | mount
  | manualClose
deriving DecidableEq, Repr

def stepE (cfg : Config) (cb : CbThrows) (s : MState) : Event → MState
  | .wsOpenEvt =>
      if !s.wsOpen && !s.wsClosing && !s.wsCloseDelivered && s.currentWsSome then handleOpen s
      else s
  | .wsCloseEvt =>
      if s.wsCloseDelivered then s
      else (handleCloseE cfg cb { s with wsCloseDelivered := true }).1
  | .connTimeoutFire =>
      -- the timer body calls `ws.close()` (the close event is delivered later)
      if s.connectionTimeout then { s with connectionTimeout := false, wsClosing := true }
      else s
  | .reconnectTimer =>
      if s.reconnectTimeout then reconnectTimerFire s else s
  | .mount => providerMount s
  | .manualClose => coreClose s

def step (cfg : Config) (s : MState) (e : Event) : MState :=
  stepE cfg noThrows s e

/-- State right after `initCapnWebSocket` returns: the closure variables are
initialized and `session = initWebsocket()` has run.  The one
`setConnectionState` performed during construction happens before any
listener or provider can exist, so the observable transition log starts
empty. -/
def initialState (cfg : Config) : MState :=
  let s : MState :=
    { retryCount := 0, isReconnecting := false, reconnectTimeout := false,
      connectionTimeout := false, connState := .connecting 0, tSession := 0,
      sessionsCreated := 0, currentWsSome := false, wsOpen := false, wsClosing := false,
      wsCloseDelivered := false, cSession := none, isClosedCore := false,
      transitions := [], scheduledDelays := [], disposeLog := [],
      onConnectedCount := 0, onDisconnectedCount := 0, onReconnectingCalls := [],
      onReconnectFailedCount := 0 }
  let s := initWebsocket s
  { s with transitions := [] }

def runFrom (cfg : Config) (s : MState) (evs : List Event) : MState :=
  evs.foldl (step cfg) s

def run (cfg : Config) (evs : List Event) : MState :=
  runFrom cfg (initialState cfg) evs

/-- The trace in which every connection attempt fails: the initial socket
closes, and each of the `n` scheduled reconnects fires its timer and the
replacement socket closes again. -/
def failRounds : Nat → List Event
  | 0 => []
  | n + 1 => failRounds n ++ [.reconnectTimer, .wsCloseEvt]

def failTrace (n : Nat) : List Event :=
  .wsCloseEvt :: failRounds n

/-- Concrete configuration for counterexample runs: the default retry count
and a backoff policy constantly zero (which delay values the policy returns
is irrelevant to the facts below). -/
def cfgDefault0 : Config :=
  ⟨defaultRetries, fun _ => 0⟩

/-- The transition relation exactly as the claim states it:
`Connecting → Connected`, `Connected → Disconnected`,
`Disconnected → Reconnecting → Connecting`, `Disconnected → Disconnected`
(retries exhausted), and any state `→ Closed`. -/
def claimedTransition : ConnState → ConnState → Bool
  | .connecting _, .connected => true
  | .connected, .disconnected _ => true
  | .disconnected _, .reconnecting _ _ => true
  | .reconnecting _ _, .connecting _ => true
  | .disconnected _, .disconnected _ => true
  | _, .closed => true
  | _, _ => false

/-- The claimed relation plus the pair the code actually also produces:
`Connecting → Disconnected` (a connect attempt whose socket closes — e.g.
on connect-timeout — before ever opening). -/
def amendedTransition (p q : ConnState) : Bool :=
  claimedTransition p q ||
    (match p, q with
      | .connecting _, .disconnected _ => true
      | _, _ => false)

/-- Reachable-state invariant of the lifecycle machine, used to establish
the transition relation and the post-close behaviour. -/
def Inv (s : MState) : Prop :=
  (s.connState = .closed → s.isClosedCore = true ∧ s.reconnectTimeout = false ∧
    s.connectionTimeout = false ∧ s.wsClosing = true) ∧
  (∀ a d, s.connState = .reconnecting a d → s.isReconnecting = true) ∧
  (s.wsOpen = false → s.wsClosing = false → s.wsCloseDelivered = false →
    ∃ a, s.connState = .connecting a) ∧
  (∀ r, s.connState = .disconnected r →
    r = some "Max retries reached" ∧ s.wsCloseDelivered = true) ∧
  (s.isClosedCore = false → s.currentWsSome = true) ∧
  (s.reconnectTimeout = true → ∃ a d, s.connState = .reconnecting a d) ∧
  (s.isClosedCore = true → s.connState = .closed ∧
    (∀ k, s.cSession = some k → k ∈ s.disposeLog) ∧ s.tSession ∈ s.disposeLog)

/-! ## Helper lemmas about the cache map -/

theorem findEntry_setEntry_self (key : String) (v : Tracker) (l : List (String × Tracker)) :
    findEntry key (setEntry key v l) = some v := by
  induction l with
  | nil => simp [setEntry, findEntry]
  | cons hd t ih =>
      obtain ⟨k, w⟩ := hd
      by_cases hk : k = key
      · simp [setEntry, hk, findEntry]
      · simp [setEntry, hk, findEntry, ih]

theorem findEntry_setEntry_ne (k' key : String) (v : Tracker) (l : List (String × Tracker))
    (h : k' ≠ key) : findEntry k' (setEntry key v l) = findEntry k' l := by
  have h' : ¬key = k' := fun hh => h hh.symm
  induction l with
  | nil => simp [setEntry, findEntry, h']
  | cons hd t ih =>
      obtain ⟨k, w⟩ := hd
      by_cases hk : k = key
      · subst hk
        simp [setEntry, findEntry, h']
      · by_cases hk' : k = k'
        · subst hk'
          simp [setEntry, h, findEntry]
        · simp [setEntry, hk, findEntry, hk', ih]

theorem findEntry_eraseEntry_self (key : String) (l : List (String × Tracker)) :
    findEntry key (eraseEntry key l) = none := by
  induction l with
  | nil => simp [eraseEntry, findEntry]
  | cons hd t ih =>
      obtain ⟨k, w⟩ := hd
      by_cases hk : k = key
      · simp [eraseEntry, hk, ih]
      · simp [eraseEntry, hk, findEntry, ih]

theorem findEntry_eq_none_of_not_mem (key : String) (l : List (String × Tracker))
    (h : key ∉ l.map Prod.fst) : findEntry key l = none := by
  induction l with
  | nil => simp [findEntry]
  | cons hd t ih =>
      obtain ⟨k, w⟩ := hd
      simp only [List.map_cons, List.mem_cons] at h
      push_neg at h
      have h1 : ¬k = key := fun hh => h.1 hh.symm
      simp [findEntry, h1, ih h.2]

theorem not_mem_map_fst_filter (key : String) (l : List (String × Tracker))
    (p : String × Tracker → Bool) (h : key ∉ l.map Prod.fst) :
    key ∉ (l.filter p).map Prod.fst := by
  intro hm
  apply h
  simp only [List.mem_map] at hm ⊢
  obtain ⟨x, hx, hfst⟩ := hm
  exact ⟨x, (List.mem_filter.mp hx).1, hfst⟩

theorem findEntry_cleanStale (s : CacheState) (now : Nat) (key : String) (tr : Tracker)
    (hnd : (s.entries.map Prod.fst).Nodup) (h : findEntry key s.entries = some tr) :
    findEntry key (cleanStalePromises s now).entries =
      if tr.status ≠ .pending ∧ now - tr.timestamp > STALE_PROMISE_MS then none
      else some tr := by
  obtain ⟨l, np, fl⟩ := s
  simp only [cleanStalePromises] at *
  induction l with
  | nil => simp [findEntry] at h
  | cons hd t ih =>
      obtain ⟨k, w⟩ := hd
      simp only [List.map_cons, List.nodup_cons] at hnd
      by_cases hk : k = key
      · subst hk
        obtain rfl : w = tr := by simpa [findEntry] using h
        by_cases hc : w.status ≠ .pending ∧ now - w.timestamp > STALE_PROMISE_MS
        · have hb : (!(decide (w.status ≠ .pending) &&
              decide (now - w.timestamp > STALE_PROMISE_MS))) = false := by
            simp [hc.1, hc.2]
          simp only [List.filter_cons, hb, Bool.false_eq_true, if_false]
          rw [if_pos hc]
          exact findEntry_eq_none_of_not_mem k _
            (not_mem_map_fst_filter k t _ hnd.1)
        · have hb : (!(decide (w.status ≠ .pending) &&
              decide (now - w.timestamp > STALE_PROMISE_MS))) = true := by
            rcases not_and_or.mp hc with hc1 | hc2
            · simp at hc1
              simp [hc1]
            · simp at hc2
              simp
              exact Or.inr hc2
          simp only [List.filter_cons, hb, if_true]
          rw [if_neg hc]
          simp [findEntry]
      · simp only [findEntry, if_neg hk] at h
        have hrec := ih hnd.2 h
        simp only [List.filter_cons]
        cases hb : (!(decide (w.status ≠ .pending) &&
            decide (now - w.timestamp > STALE_PROMISE_MS))) with
        | false =>
            simp only [hb, Bool.false_eq_true, if_false]
            exact hrec
        | true =>
            simp only [hb, if_true]
            simp only [findEntry, if_neg hk]
            exact hrec

/-! ## Claim theorems -/

/-- C6: the default backoff strategy computes
`min(1000 * 2^(attempt-1), 30000) + jitter` with jitter `= r * 1000`
uniformly drawn from `[0, 1000)`; for every attempt ≥ 1 the result is a
(finite, since it is a rational number) non-negative value, `computeDelay(1)`
lies in `[1000, 2000)` and `computeDelay(6)` lies in `[30000, 31000)`. -/
theorem defaultBackoff_bounds (attempt : Nat) (r : ℚ)
    (ha : 1 ≤ attempt) (hr0 : 0 ≤ r) (hr1 : r < 1) :
    0 ≤ defaultBackoffStrategy attempt r ∧
    (1000 ≤ defaultBackoffStrategy 1 r ∧ defaultBackoffStrategy 1 r < 2000) ∧
    (30000 ≤ defaultBackoffStrategy 6 r ∧ defaultBackoffStrategy 6 r < 31000) := by
  refine ⟨?_, ?_, ?_⟩
  · unfold defaultBackoffStrategy
    have hpow : (0 : ℚ) < (2 : ℚ) ^ ((attempt : ℤ) - 1) := by positivity
    have h1 : (0 : ℚ) ≤ min (1000 * (2 : ℚ) ^ ((attempt : ℤ) - 1)) 30000 :=
      le_min (by nlinarith) (by norm_num)
    nlinarith
  · unfold defaultBackoffStrategy
    norm_num
    constructor <;> nlinarith
  · unfold defaultBackoffStrategy
    norm_num
    constructor <;> nlinarith

/-- Witness for C6 at `attempt = 1`, `r = 0`. -/
theorem defaultBackoff_bounds_witness :
    0 ≤ defaultBackoffStrategy 1 0 ∧
    (1000 ≤ defaultBackoffStrategy 1 0 ∧ defaultBackoffStrategy 1 0 < 2000) ∧
    (30000 ≤ defaultBackoffStrategy 6 0 ∧ defaultBackoffStrategy 6 0 < 31000) :=
  defaultBackoff_bounds 1 0 (by norm_num) (by norm_num) (by norm_num)

/-- C5: a cache lookup whose derived string key matches an existing entry
(whatever its status: pending, resolved or rejected) returns the promise
object of that entry and leaves the cache unchanged — in particular the factory is
not re-invoked; two successive lookups with the same fresh key invoke the
factory exactly once and yield the same promise; two lookups with distinct
fresh keys each invoke the factory and yield distinct promises; and the keys
derived for `add` with args `[5,3]` and with args `[3,5]` are distinct. -/
theorem resultCache_dedup :
    (∀ (s : CacheState) (key : String) (now : Nat) (tr : Tracker),
        findEntry key s.entries = some tr →
        lookupCache s key now = (tr.promise, s)) ∧
    (∀ (s : CacheState) (key : String) (now now' : Nat),
        findEntry key s.entries = none →
        lookupCache (lookupCache s key now).2 key now' =
          ((lookupCache s key now).1, (lookupCache s key now).2) ∧
        (lookupCache s key now).2.factoryLog = s.factoryLog ++ [key]) ∧
    (∀ (s : CacheState) (k1 k2 : String) (now now' : Nat),
        k1 ≠ k2 →
        findEntry k1 s.entries = none → findEntry k2 s.entries = none →
        (lookupCache (lookupCache s k1 now).2 k2 now').1 ≠ (lookupCache s k1 now).1 ∧
        (lookupCache (lookupCache s k1 now).2 k2 now').2.factoryLog =
          s.factoryLog ++ [k1, k2]) ∧
    useCapnWebKey "add" [.num 5, .num 3] ≠ useCapnWebKey "add" [.num 3, .num 5] := by
  refine ⟨?_, ?_, ?_, by decide⟩
  · intro s key now tr h
    simp [lookupCache, h]
  · intro s key now now' h
    simp only [lookupCache, h]
    constructor
    · simp [findEntry_setEntry_self]
    · simp
  · intro s k1 k2 now now' hne h1 h2
    have h2' : findEntry k2 (setEntry k1 ⟨.pending, s.nextPromise, now⟩ s.entries) = none := by
      rw [findEntry_setEntry_ne k2 k1 _ _ (fun hh => hne hh.symm)]
      exact h2
    constructor
    · simp only [lookupCache, h1, h2']
      omega
    · simp [lookupCache, h1, h2']

/-- Witness for C5: a hit on a rejected entry, a repeated fresh lookup, and
the two distinct `add` keys, all at concrete inputs. -/
theorem resultCache_dedup_witness :
    (lookupCache ⟨[("x", ⟨.rejected, 7, 0⟩)], 9, []⟩ "x" 3 =
      ((7 : Nat), ⟨[("x", ⟨.rejected, 7, 0⟩)], 9, []⟩)) ∧
    (lookupCache (lookupCache ⟨[], 0, []⟩ (useCapnWebKey "add" [.num 5, .num 3]) 0).2
        (useCapnWebKey "add" [.num 5, .num 3]) 1 =
      ((lookupCache ⟨[], 0, []⟩ (useCapnWebKey "add" [.num 5, .num 3]) 0).1,
        (lookupCache ⟨[], 0, []⟩ (useCapnWebKey "add" [.num 5, .num 3]) 0).2)) ∧
    ((lookupCache (lookupCache ⟨[], 0, []⟩ (useCapnWebKey "add" [.num 5, .num 3]) 0).2
        (useCapnWebKey "add" [.num 3, .num 5]) 1).1 ≠
      (lookupCache ⟨[], 0, []⟩ (useCapnWebKey "add" [.num 5, .num 3]) 0).1) :=
  ⟨resultCache_dedup.1 ⟨[("x", ⟨.rejected, 7, 0⟩)], 9, []⟩ "x" 3 ⟨.rejected, 7, 0⟩ (by decide),
    (resultCache_dedup.2.1 ⟨[], 0, []⟩ (useCapnWebKey "add" [.num 5, .num 3]) 0 1 (by decide)).1,
    (resultCache_dedup.2.2.1 ⟨[], 0, []⟩ (useCapnWebKey "add" [.num 5, .num 3])
      (useCapnWebKey "add" [.num 3, .num 5]) 0 1 (by decide) (by decide) (by decide)).1⟩

/-- C8 counterexample: with an empty cache, a factory that throws
synchronously makes `useNamedPromise` propagate the throw synchronously
(result `none`) and cache nothing at all — there is no rejected cached
promise under any key (the entry map stays empty), contradicting the claim
that the throw is converted into a cached rejected promise keyed by the
error identity. -/
theorem cacheFactoryThrow_counterexample :
    (useNamedPromiseLookup ⟨[], 0, []⟩ "k" true 0).1 = none ∧
    (useNamedPromiseLookup ⟨[], 0, []⟩ "k" true 0).2.entries = [] :=
  ⟨rfl, rfl⟩

/-- C8 amended: a synchronous throw from the miss-path factory propagates
synchronously to the caller (the hook has no try/catch around `fn(api)`),
creates no cache entry, and a repeated read of the same key re-invokes the
factory and throws again — failures are NOT converted into cached rejected
promises. -/
theorem cacheFactoryThrow_propagates (s : CacheState) (key : String) (now now' : Nat)
    (h : findEntry key s.entries = none) :
    useNamedPromiseLookup s key true now =
      (none, { s with factoryLog := s.factoryLog ++ [key] }) ∧
    useNamedPromiseLookup { s with factoryLog := s.factoryLog ++ [key] } key true now' =
      (none, { s with factoryLog := s.factoryLog ++ [key, key] }) := by
  constructor
  · simp [useNamedPromiseLookup, h]
  · simp [useNamedPromiseLookup, h]

/-- Witness for C8 amended, at the empty cache and key `"k"`. -/
theorem cacheFactoryThrow_propagates_witness :
    useNamedPromiseLookup ⟨[], 0, []⟩ "k" true 0 = (none, ⟨[], 0, ["k"]⟩) ∧
    useNamedPromiseLookup ⟨[], 0, ["k"]⟩ "k" true 1 = (none, ⟨[], 0, ["k", "k"]⟩) :=
  cacheFactoryThrow_propagates ⟨[], 0, []⟩ "k" 0 1 rfl

/-- C10: the mount-time effect of `useNamedPromise` runs `cleanCache(key)`
without the force flag, which deletes the entry for that key exactly when
its status is not `pending` (regardless of its timestamp, i.e. even inside
the 60-second staleness window), while a pending entry survives; the unmount
cleanup (`cleanCache(key, true)`) evicts unconditionally; the periodic sweep
`cleanStalePromises` removes a settled entry exactly when more than
`STALE_PROMISE_MS = 60000` ms have elapsed since its creation timestamp and
never removes a pending entry; the sweep period is
`CLEANUP_INTERVAL_MS = 10000` ms. -/
theorem cacheEviction_semantics :
    (∀ (s : CacheState) (key : String) (tr : Tracker),
        findEntry key s.entries = some tr →
        findEntry key (cleanCache s key false).entries =
          (if tr.status = .pending then some tr else none)) ∧
    (∀ (s : CacheState) (key : String),
        findEntry key (cleanCache s key true).entries = none) ∧
    (∀ (s : CacheState) (now : Nat) (key : String) (tr : Tracker),
        (s.entries.map Prod.fst).Nodup →
        findEntry key s.entries = some tr →
        findEntry key (cleanStalePromises s now).entries =
          (if tr.status ≠ .pending ∧ now - tr.timestamp > STALE_PROMISE_MS
            then none else some tr)) ∧
    STALE_PROMISE_MS = 60000 ∧ CLEANUP_INTERVAL_MS = 10000 := by
  refine ⟨?_, ?_, ?_, rfl, rfl⟩
  · intro s key tr h
    by_cases hp : tr.status = .pending
    · simp [cleanCache, h, hp]
    · simp [cleanCache, h, hp, findEntry_eraseEntry_self]
  · intro s key
    simp [cleanCache, findEntry_eraseEntry_self]
  · intro s now key tr hnd h
    exact findEntry_cleanStale s now key tr hnd h

/-- Witness for C10: a resolved entry inside the staleness window is evicted
by the mount-time clean but kept by the sweep; a pending entry survives the
mount-time clean and is evicted by the forced clean. -/
theorem cacheEviction_semantics_witness :
    findEntry "k" (cleanCache ⟨[("k", ⟨.resolved, 0, 100⟩)], 1, []⟩ "k" false).entries = none ∧
    findEntry "k" (cleanCache ⟨[("k", ⟨.pending, 0, 100⟩)], 1, []⟩ "k" false).entries =
      some ⟨.pending, 0, 100⟩ ∧
    findEntry "k" (cleanCache ⟨[("k", ⟨.pending, 0, 100⟩)], 1, []⟩ "k" true).entries = none ∧
    findEntry "k" (cleanStalePromises ⟨[("k", ⟨.resolved, 0, 100⟩)], 1, []⟩ 1000).entries =
      some ⟨.resolved, 0, 100⟩ ∧
    findEntry "k" (cleanStalePromises ⟨[("k", ⟨.resolved, 0, 100⟩)], 1, []⟩ 70000).entries =
      none := by
  have h1 := cacheEviction_semantics.1 ⟨[("k", ⟨.resolved, 0, 100⟩)], 1, []⟩ "k" _ rfl
  have h2 := cacheEviction_semantics.1 ⟨[("k", ⟨.pending, 0, 100⟩)], 1, []⟩ "k" _ rfl
  have h3 := cacheEviction_semantics.2.1 ⟨[("k", ⟨.pending, 0, 100⟩)], 1, []⟩ "k"
  have h4 := cacheEviction_semantics.2.2.1 ⟨[("k", ⟨.resolved, 0, 100⟩)], 1, []⟩ 1000 "k" _
    (by decide) rfl
  have h5 := cacheEviction_semantics.2.2.1 ⟨[("k", ⟨.resolved, 0, 100⟩)], 1, []⟩ 70000 "k" _
    (by decide) rfl
  refine ⟨by simpa using h1, by simpa using h2, h3, by simpa using h4, ?_⟩
  simpa [STALE_PROMISE_MS] using h5

/-! ## Helper lemmas about the lifecycle machine -/

theorem run_append (cfg : Config) (l l' : List Event) :
    run cfg (l ++ l') = runFrom cfg (run cfg l) l' := by
  simp [run, runFrom, List.foldl_append]

theorem step_manualClose_isClosedCore (cfg : Config) (s : MState) :
    (step cfg s .manualClose).isClosedCore = true := by
  by_cases h : s.isClosedCore
  · simp [step, stepE, coreClose, h]
  · simp only [step, stepE, coreClose, h, if_false, Bool.false_eq_true]
    rcases hcs : (transportClose { s with isClosedCore := true }).cSession with _ | k
    · simp only [hcs]
      simp [transportClose, setCS]
      split <;> rfl
    · simp only [hcs]
      simp [transportClose, setCS]
      split <;> rfl

theorem step_manualClose_of_closed (cfg : Config) (s : MState)
    (h : s.isClosedCore = true) : step cfg s .manualClose = s := by
  simp [step, stepE, coreClose, h]

/-- C1 evaluated at the failing input `[mount, wsCloseEvt, reconnectTimer]`
(a provider mounts, the socket drops, the scheduled reconnect fires): the
transport-internal `useCapnWebStub` does track the swap (it returns the new
session 1), but the provider context — the path every public hook reads
through — still delivers the mount-time session 0, which the reconnect timer
just disposed; no event ever updates the context after a reconnect. -/
theorem staleHandleAfterReconnect :
    transportStub (run cfgDefault0 [.mount, .wsCloseEvt, .reconnectTimer]) = 1 ∧
    contextValue (run cfgDefault0 [.mount, .wsCloseEvt, .reconnectTimer]) = some 0 ∧
    contextValue (run cfgDefault0 [.mount, .wsCloseEvt, .reconnectTimer]) ≠
      some (transportStub (run cfgDefault0 [.mount, .wsCloseEvt, .reconnectTimer])) ∧
    0 ∈ (run cfgDefault0 [.mount, .wsCloseEvt, .reconnectTimer]).disposeLog ∧
    1 ∉ (run cfgDefault0 [.mount, .wsCloseEvt, .reconnectTimer]).disposeLog :=
  ⟨rfl, rfl, by decide, by decide, by decide⟩

/-- C3 counterexample: after a provider has mounted, running `close()` twice
produces `disposeLog = [0, 0]` — the single current session (id 0) has its
`Symbol.dispose` invoked twice (once by the transport close, once by the
own `disposeSession(session)` of the core wrapper), refuting "the current session
is disposed exactly once"; the one `Closed` transition happens as claimed. -/
theorem closeIdem_counterexample :
    (run cfgDefault0 [.mount, .manualClose, .manualClose]).disposeLog = [0, 0] ∧
    ((run cfgDefault0 [.mount, .manualClose, .manualClose]).disposeLog.count 0) = 2 ∧
    ((run cfgDefault0 [.mount, .manualClose, .manualClose]).transitions.countP
      fun p => p.2.isClosed) = 1 :=
  ⟨rfl, rfl, rfl⟩

/-- C3 amended: `close()` is idempotent in the sense that the second call is
a complete no-op (the whole machine state, including the dispose and
transition logs, is unchanged), and two calls produce exactly one transition
to `Closed` (one notification round); however a single `close()` after a
provider mount invokes disposal of the current session twice — once from the
transport close and once from the core wrapper — rather than exactly once. -/
theorem closeIdem_amended :
    (∀ (cfg : Config) (evs : List Event),
        run cfg (evs ++ [.manualClose, .manualClose]) = run cfg (evs ++ [.manualClose])) ∧
    ((run cfgDefault0 [.mount, .manualClose]).transitions.countP
      fun p => p.2.isClosed) = 1 ∧
    (run cfgDefault0 [.mount, .manualClose]).disposeLog = [0, 0] := by
  refine ⟨?_, rfl, rfl⟩
  intro cfg evs
  rw [run_append, run_append]
  show runFrom cfg (run cfg evs) [.manualClose, .manualClose] =
    runFrom cfg (run cfg evs) [.manualClose]
  simp only [runFrom, List.foldl_cons, List.foldl_nil]
  exact step_manualClose_of_closed cfg _ (step_manualClose_isClosedCore cfg _)

/-- C7 counterexample: at the initial state (connecting, retry budget
untouched), a close event whose `onDisconnected` callback throws leaves the
machine with no reconnect scheduled (`reconnectTimeout = false`,
`isReconnecting = false`, nothing in `scheduledDelays`), while the same
event with a non-throwing callback arms the reconnect timer; the exception
escapes `handleClose` uncaught (second component `true`).  The callback is
thus neither caught nor harmless, refuting the claim. -/
theorem callbackThrow_counterexample :
    (handleCloseE cfgDefault0 ⟨false, true, false, false⟩
        { initialState cfgDefault0 with wsCloseDelivered := true }).2 = true ∧
    (stepE cfgDefault0 ⟨false, true, false, false⟩
        (initialState cfgDefault0) .wsCloseEvt).reconnectTimeout = false ∧
    (stepE cfgDefault0 ⟨false, true, false, false⟩
        (initialState cfgDefault0) .wsCloseEvt).isReconnecting = false ∧
    (stepE cfgDefault0 ⟨false, true, false, false⟩
        (initialState cfgDefault0) .wsCloseEvt).scheduledDelays = [] ∧
    (stepE cfgDefault0 noThrows
        (initialState cfgDefault0) .wsCloseEvt).reconnectTimeout = true :=
  ⟨rfl, rfl, rfl, rfl, rfl⟩

/-- C7 amended: the consumer lifecycle callbacks are invoked with no
try/catch around them, so a throwing callback propagates out of
`handleClose` (`.2 = true`) and aborts every remaining step of the
transition: a throwing `onDisconnected` leaves the machine in
`disconnected` with no retry scheduled and `isReconnecting` still clear; a
throwing `onReconnecting` leaves `isReconnecting` set with the reconnect
timer never armed.  Only session disposal and the transport `onClose` hook
are guarded by try/catch in the source. -/
theorem callbackThrow_aborts (cfg : Config) (s : MState)
    (hnc : s.connState ≠ ConnState.closed) (hnr : s.isReconnecting = false)
    (hlt : s.retryCount < cfg.retries) :
    ((handleCloseE cfg ⟨false, true, false, false⟩ s).2 = true ∧
      (handleCloseE cfg ⟨false, true, false, false⟩ s).1.reconnectTimeout =
        s.reconnectTimeout ∧
      (handleCloseE cfg ⟨false, true, false, false⟩ s).1.isReconnecting = false ∧
      (handleCloseE cfg ⟨false, true, false, false⟩ s).1.connState = .disconnected none ∧
      (handleCloseE cfg ⟨false, true, false, false⟩ s).1.scheduledDelays =
        s.scheduledDelays) ∧
    ((handleCloseE cfg ⟨false, false, true, false⟩ s).2 = true ∧
      (handleCloseE cfg ⟨false, false, true, false⟩ s).1.reconnectTimeout =
        s.reconnectTimeout ∧
      (handleCloseE cfg ⟨false, false, true, false⟩ s).1.isReconnecting = true ∧
      (handleCloseE cfg ⟨false, false, true, false⟩ s).1.scheduledDelays =
        s.scheduledDelays) := by
  simp [handleCloseE, hnc, hnr, hlt, setCS]

/-- Witness for C7 amended, at the initial state of the default
configuration. -/
theorem callbackThrow_aborts_witness :
    (handleCloseE cfgDefault0 ⟨false, true, false, false⟩ (initialState cfgDefault0)).2 =
      true ∧
    (handleCloseE cfgDefault0 ⟨false, false, true, false⟩
        (initialState cfgDefault0)).1.isReconnecting = true := by
  have h := callbackThrow_aborts cfgDefault0 (initialState cfgDefault0)
    (by decide) (by decide) (by decide)
  exact ⟨h.1.1, h.2.2.2.1⟩

/-! ## Transition soundness of the lifecycle machine -/

theorem claimedTransition_closed (p : ConnState) : claimedTransition p .closed = true := by
  cases p <;> rfl

theorem step_sound (cfg : Config) (s : MState) (e : Event) (h : Inv s) :
    Inv (step cfg s e) ∧
    ∃ δ, (step cfg s e).transitions = s.transitions ++ δ ∧
      (∀ p ∈ δ, amendedTransition p.1 p.2 = true ∧ p.1 ≠ ConnState.closed) ∧
      (e ≠ Event.manualClose → ∀ p ∈ δ, p.2 ≠ ConnState.closed) := by
  obtain ⟨h1, h2, h3, h4, h5, h6, h7⟩ := h
  cases e with
  | wsOpenEvt =>
      by_cases hg : (!s.wsOpen && !s.wsClosing && !s.wsCloseDelivered && s.currentWsSome) = true
      · obtain ⟨⟨⟨hwo, hwc⟩, hwd⟩, hcw⟩ :
            ((s.wsOpen = false ∧ s.wsClosing = false) ∧ s.wsCloseDelivered = false) ∧
              s.currentWsSome = true := by
          simpa [Bool.and_eq_true, Bool.not_eq_true'] using hg
        obtain ⟨a, hconn⟩ := h3 hwo hwc hwd
        simp only [step, stepE, hg, if_true, handleOpen, setCS]
        refine ⟨⟨?_, ?_, ?_, ?_, ?_, ?_, ?_⟩,
          [(s.connState, ConnState.connected)], rfl, ?_, ?_⟩
        · intro hcl; exact ConnState.noConfusion hcl
        · intro a d hh; exact ConnState.noConfusion hh
        · intro ho; exact Bool.noConfusion ho
        · intro r hh; exact ConnState.noConfusion hh
        · exact h5
        · intro hrt
          obtain ⟨a', d', hh⟩ := h6 hrt
          rw [hconn] at hh
          exact ConnState.noConfusion hh
        · intro hic
          obtain ⟨hcl, _⟩ := h7 hic
          rw [hconn] at hcl
          exact ConnState.noConfusion hcl
        · intro p hp
          simp only [List.mem_singleton] at hp
          subst hp
          rw [hconn]
          exact ⟨rfl, fun hh => ConnState.noConfusion hh⟩
        · intro _ p hp
          simp only [List.mem_singleton] at hp
          subst hp
          exact fun hh => ConnState.noConfusion hh
      · simp only [step, stepE, hg, if_false, Bool.false_eq_true]
        exact ⟨⟨h1, h2, h3, h4, h5, h6, h7⟩, [], (List.append_nil _).symm,
          by simp, by simp⟩
  | wsCloseEvt =>
      by_cases hwd : s.wsCloseDelivered = true
      · simp only [step, stepE, hwd, if_true]
        exact ⟨⟨h1, h2, h3, h4, h5, h6, h7⟩, [], (List.append_nil _).symm,
          by simp, by simp⟩
      · have hwd' : s.wsCloseDelivered = false := by simpa using hwd
        by_cases hcl : s.connState = ConnState.closed
        · have hstep : step cfg s .wsCloseEvt = { s with wsCloseDelivered := true } := by
            simp [step, stepE, handleCloseE, hwd', hcl]
          rw [hstep]
          refine ⟨⟨?_, ?_, ?_, ?_, ?_, ?_, ?_⟩, [], (List.append_nil _).symm,
            by simp, by simp⟩
          · intro _; exact h1 hcl
          · exact h2
          · intro _ _ hf; exact Bool.noConfusion hf
          · intro r hh; exact ⟨(h4 r hh).1, rfl⟩
          · exact h5
          · exact h6
          · exact h7
        · by_cases hir : s.isReconnecting = true
          · have hstep : step cfg s .wsCloseEvt =
                { s with wsCloseDelivered := true, connectionTimeout := false } := by
              simp [step, stepE, handleCloseE, hwd', hcl, hir]
            rw [hstep]
            refine ⟨⟨?_, ?_, ?_, ?_, ?_, ?_, ?_⟩, [], (List.append_nil _).symm,
              by simp, by simp⟩
            · intro hcl'; exact absurd hcl' hcl
            · exact h2
            · intro _ _ hf; exact Bool.noConfusion hf
            · intro r hh; exact ⟨(h4 r hh).1, rfl⟩
            · exact h5
            · exact h6
            · intro hic
              obtain ⟨hc, _⟩ := h7 hic
              exact absurd hc hcl
          · have hirf : s.isReconnecting = false := by simpa using hir
            have hnd : ∀ r, s.connState ≠ ConnState.disconnected r := by
              intro r hh
              exact Bool.noConfusion (hwd'.symm.trans (h4 r hh).2)
            have hnr : ∀ a d, s.connState ≠ ConnState.reconnecting a d := by
              intro a d hh
              exact Bool.noConfusion (hirf.symm.trans (h2 a d hh))
            have hamend1 : amendedTransition s.connState (ConnState.disconnected none) = true := by
              cases hs : s.connState with
              | connecting a => rfl
              | connected => rfl
              | reconnecting a d => exact absurd hs (hnr a d)
              | disconnected r => exact absurd hs (hnd r)
              | closed => exact absurd hs hcl
            by_cases hretry : s.retryCount < cfg.retries
            · have hstep : step cfg s .wsCloseEvt =
                  { s with
                    wsCloseDelivered := true, connectionTimeout := false,
                    connState :=
                      ConnState.reconnecting (s.retryCount + 1) (cfg.backoff (s.retryCount + 1)),
                    transitions :=
                      s.transitions ++
                        [(s.connState, ConnState.disconnected none),
                          (ConnState.disconnected none,
                            ConnState.reconnecting (s.retryCount + 1)
                              (cfg.backoff (s.retryCount + 1)))],
                    onDisconnectedCount := s.onDisconnectedCount + 1,
                    isReconnecting := true, retryCount := s.retryCount + 1,
                    onReconnectingCalls := s.onReconnectingCalls ++ [s.retryCount + 1],
                    reconnectTimeout := true,
                    scheduledDelays := s.scheduledDelays ++ [cfg.backoff (s.retryCount + 1)] } := by
                simp [step, stepE, handleCloseE, setCS, noThrows, hwd', hcl, hirf, hretry]
              rw [hstep]
              refine ⟨⟨?_, ?_, ?_, ?_, ?_, ?_, ?_⟩,
                [(s.connState, ConnState.disconnected none),
                  (ConnState.disconnected none,
                    ConnState.reconnecting (s.retryCount + 1)
                      (cfg.backoff (s.retryCount + 1)))], rfl, ?_, ?_⟩
              · intro hf; exact ConnState.noConfusion hf
              · intro _ _ _; rfl
              · intro _ _ hf; exact Bool.noConfusion hf
              · intro r hh; exact ConnState.noConfusion hh
              · exact h5
              · intro _; exact ⟨_, _, rfl⟩
              · intro hic
                obtain ⟨hc, _⟩ := h7 hic
                exact absurd hc hcl
              · intro p hp
                simp only [List.mem_cons, List.mem_singleton] at hp
                rcases hp with rfl | rfl | hf
                · exact ⟨hamend1, hcl⟩
                · exact ⟨rfl, fun hh => ConnState.noConfusion hh⟩
                · exact absurd hf (List.not_mem_nil p)
              · intro _ p hp
                simp only [List.mem_cons, List.mem_singleton] at hp
                rcases hp with rfl | rfl | hf
                · exact fun hh => ConnState.noConfusion hh
                · exact fun hh => ConnState.noConfusion hh
                · exact absurd hf (List.not_mem_nil p)
            · have hstep : step cfg s .wsCloseEvt =
                  { s with
                    wsCloseDelivered := true, connectionTimeout := false,
                    connState := ConnState.disconnected (some "Max retries reached"),
                    transitions :=
                      s.transitions ++
                        [(s.connState, ConnState.disconnected none),
                          (ConnState.disconnected none,
                            ConnState.disconnected (some "Max retries reached"))],
                    onDisconnectedCount := s.onDisconnectedCount + 1,
                    onReconnectFailedCount := s.onReconnectFailedCount + 1 } := by
                simp [step, stepE, handleCloseE, setCS, noThrows, hwd', hcl, hirf, hretry]
              rw [hstep]
              refine ⟨⟨?_, ?_, ?_, ?_, ?_, ?_, ?_⟩,
                [(s.connState, ConnState.disconnected none),
                  (ConnState.disconnected none,
                    ConnState.disconnected (some "Max retries reached"))], rfl, ?_, ?_⟩
              · intro hf; exact ConnState.noConfusion hf
              · intro a d hh; exact ConnState.noConfusion hh
              · intro _ _ hf; exact Bool.noConfusion hf
              · intro r hh
                refine ⟨?_, rfl⟩
                injection hh with h'
                exact h'.symm
              · exact h5
              · intro hrt
                obtain ⟨a, d, hh⟩ := h6 hrt
                exact absurd hh (hnr a d)
              · intro hic
                obtain ⟨hc, _⟩ := h7 hic
                exact absurd hc hcl
              · intro p hp
                simp only [List.mem_cons, List.mem_singleton] at hp
                rcases hp with rfl | rfl | hf
                · exact ⟨hamend1, hcl⟩
                · exact ⟨rfl, fun hh => ConnState.noConfusion hh⟩
                · exact absurd hf (List.not_mem_nil p)
              · intro _ p hp
                simp only [List.mem_cons, List.mem_singleton] at hp
                rcases hp with rfl | rfl | hf
                · exact fun hh => ConnState.noConfusion hh
                · exact fun hh => ConnState.noConfusion hh
                · exact absurd hf (List.not_mem_nil p)
  | connTimeoutFire =>
      by_cases hct : s.connectionTimeout = true
      · have hstep : step cfg s .connTimeoutFire =
            { s with connectionTimeout := false, wsClosing := true } := by
          simp [step, stepE, hct]
        rw [hstep]
        refine ⟨⟨?_, ?_, ?_, ?_, ?_, ?_, ?_⟩, [], (List.append_nil _).symm,
          by simp, by simp⟩
        · intro hcl
          obtain ⟨a, b, _, _⟩ := h1 hcl
          exact ⟨a, b, rfl, rfl⟩
        · exact h2
        · intro _ hf; exact Bool.noConfusion hf
        · exact h4
        · exact h5
        · exact h6
        · exact h7
      · have hctf : s.connectionTimeout = false := by simpa using hct
        simp only [step, stepE, hctf, Bool.false_eq_true, if_false]
        exact ⟨⟨h1, h2, h3, h4, h5, h6, h7⟩, [], (List.append_nil _).symm,
          by simp, by simp⟩
  | reconnectTimer =>
      by_cases hrt : s.reconnectTimeout = true
      · obtain ⟨a, d, hconn⟩ := h6 hrt
        have hstep : step cfg s .reconnectTimer =
            { s with
              isReconnecting := false, reconnectTimeout := false,
              disposeLog := s.disposeLog ++ [s.tSession],
              currentWsSome := true, wsOpen := false, wsClosing := false,
              wsCloseDelivered := false,
              connState := ConnState.connecting s.retryCount,
              transitions :=
                s.transitions ++ [(s.connState, ConnState.connecting s.retryCount)],
              connectionTimeout := true,
              tSession := s.sessionsCreated, sessionsCreated := s.sessionsCreated + 1 } := by
          simp [step, stepE, hrt, reconnectTimerFire, initWebsocket, setCS]
        rw [hstep]
        refine ⟨⟨?_, ?_, ?_, ?_, ?_, ?_, ?_⟩,
          [(s.connState, ConnState.connecting s.retryCount)], rfl, ?_, ?_⟩
        · intro hf; exact ConnState.noConfusion hf
        · intro a' d' hh; exact ConnState.noConfusion hh
        · intro _ _ _; exact ⟨s.retryCount, rfl⟩
        · intro r hh; exact ConnState.noConfusion hh
        · intro _; rfl
        · intro hf; exact Bool.noConfusion hf
        · intro hic
          obtain ⟨hc, _⟩ := h7 hic
          exact ConnState.noConfusion (hconn.symm.trans hc)
        · intro p hp
          simp only [List.mem_singleton] at hp
          subst hp
          rw [hconn]
          exact ⟨rfl, fun hh => ConnState.noConfusion hh⟩
        · intro _ p hp
          simp only [List.mem_singleton] at hp
          subst hp
          exact fun hh => ConnState.noConfusion hh
      · have hrtf : s.reconnectTimeout = false := by simpa using hrt
        simp only [step, stepE, hrtf, Bool.false_eq_true, if_false]
        exact ⟨⟨h1, h2, h3, h4, h5, h6, h7⟩, [], (List.append_nil _).symm,
          by simp, by simp⟩
  | mount =>
      by_cases hm : s.cSession = none ∧ s.isClosedCore = false
      · have hstep : step cfg s .mount = { s with cSession := some s.tSession } := by
          simp [step, stepE, providerMount, hm]
        rw [hstep]
        refine ⟨⟨?_, ?_, ?_, ?_, ?_, ?_, ?_⟩, [], (List.append_nil _).symm,
          by simp, by simp⟩
        · exact h1
        · exact h2
        · exact h3
        · exact h4
        · exact h5
        · exact h6
        · intro hic; exact absurd hic (by simp [hm.2])
      · have hstep : step cfg s .mount = s := by
          simp [step, stepE, providerMount, hm]
        rw [hstep]
        exact ⟨⟨h1, h2, h3, h4, h5, h6, h7⟩, [], (List.append_nil _).symm,
          by simp, by simp⟩
  | manualClose =>
      by_cases hic : s.isClosedCore = true
      · have hstep : step cfg s .manualClose = s := by
          simp [step, stepE, coreClose, hic]
        rw [hstep]
        exact ⟨⟨h1, h2, h3, h4, h5, h6, h7⟩, [], (List.append_nil _).symm,
          by simp, by simp⟩
      · have hicf : s.isClosedCore = false := by simpa using hic
        have hws : s.currentWsSome = true := h5 hicf
        have hscl : s.connState ≠ ConnState.closed := fun hcl =>
          Bool.noConfusion (hicf.symm.trans (h1 hcl).1)
        rcases hcs : s.cSession with _ | k
        · have hstep : step cfg s .manualClose =
              { s with
                isClosedCore := true, reconnectTimeout := false,
                connectionTimeout := false, wsClosing := true, currentWsSome := false,
                disposeLog := s.disposeLog ++ [s.tSession],
                connState := ConnState.closed,
                transitions := s.transitions ++ [(s.connState, ConnState.closed)] } := by
            simp [step, stepE, coreClose, transportClose, setCS, hicf, hws, hcs]
          rw [hstep]
          refine ⟨⟨?_, ?_, ?_, ?_, ?_, ?_, ?_⟩,
            [(s.connState, ConnState.closed)], rfl, ?_, ?_⟩
          · intro _; exact ⟨rfl, rfl, rfl, rfl⟩
          · intro a d hh; exact ConnState.noConfusion hh
          · intro _ hf; exact Bool.noConfusion hf
          · intro r hh; exact ConnState.noConfusion hh
          · intro hf; exact Bool.noConfusion hf
          · intro hf; exact Bool.noConfusion hf
          · intro _
            refine ⟨rfl, ?_, by simp⟩
            intro k' hk'
            have hk2 : s.cSession = some k' := hk'
            exact Option.noConfusion (hcs.symm.trans hk2)
          · intro p hp
            simp only [List.mem_singleton] at hp
            subst hp
            refine ⟨?_, hscl⟩
            simp [amendedTransition, claimedTransition_closed]
          · intro hne _ _
            exact absurd rfl hne
        · have hstep : step cfg s .manualClose =
              { s with
                isClosedCore := true, reconnectTimeout := false,
                connectionTimeout := false, wsClosing := true, currentWsSome := false,
                disposeLog := s.disposeLog ++ [s.tSession, k],
                connState := ConnState.closed,
                transitions := s.transitions ++ [(s.connState, ConnState.closed)] } := by
            simp [step, stepE, coreClose, transportClose, setCS, hicf, hws, hcs]
          rw [hstep]
          refine ⟨⟨?_, ?_, ?_, ?_, ?_, ?_, ?_⟩,
            [(s.connState, ConnState.closed)], rfl, ?_, ?_⟩
          · intro _; exact ⟨rfl, rfl, rfl, rfl⟩
          · intro a d hh; exact ConnState.noConfusion hh
          · intro _ hf; exact Bool.noConfusion hf
          · intro r hh; exact ConnState.noConfusion hh
          · intro hf; exact Bool.noConfusion hf
          · intro hf; exact Bool.noConfusion hf
          · intro _
            refine ⟨rfl, ?_, by simp⟩
            intro k' hk'
            have hk2 : s.cSession = some k' := hk'
            obtain rfl : k = k' := Option.some.inj (hcs.symm.trans hk2)
            simp
          · intro p hp
            simp only [List.mem_singleton] at hp
            subst hp
            refine ⟨?_, hscl⟩
            simp [amendedTransition, claimedTransition_closed]
          · intro hne _ _
            exact absurd rfl hne


/-! ## Run-level soundness and the remaining claims -/

theorem inv_initial (cfg : Config) : Inv (initialState cfg) := by
  refine ⟨?_, ?_, ?_, ?_, ?_, ?_, ?_⟩
  · intro hcl; exact ConnState.noConfusion hcl
  · intro a d hh; exact ConnState.noConfusion hh
  · intro _ _ _; exact ⟨0, rfl⟩
  · intro r hh; exact ConnState.noConfusion hh
  · intro _; rfl
  · intro hf; exact Bool.noConfusion hf
  · intro hf; exact Bool.noConfusion hf

theorem initialState_transitions (cfg : Config) : (initialState cfg).transitions = [] :=
  rfl

theorem runFrom_sound (cfg : Config) (evs : List Event) :
    ∀ s : MState, Inv s →
      (∀ p ∈ s.transitions, amendedTransition p.1 p.2 = true ∧ p.1 ≠ ConnState.closed) →
      Inv (runFrom cfg s evs) ∧
        ∀ p ∈ (runFrom cfg s evs).transitions,
          amendedTransition p.1 p.2 = true ∧ p.1 ≠ ConnState.closed := by
  induction evs with
  | nil => intro s h ht; exact ⟨h, ht⟩
  | cons e t ih =>
      intro s h ht
      obtain ⟨hi, δ, hδeq, hδok, _⟩ := step_sound cfg s e h
      have ht' : ∀ p ∈ (step cfg s e).transitions,
          amendedTransition p.1 p.2 = true ∧ p.1 ≠ ConnState.closed := by
        intro p hp
        rw [hδeq] at hp
        rcases List.mem_append.mp hp with h1 | h2
        · exact ht p h1
        · exact hδok p h2
      exact ih (step cfg s e) hi ht'

theorem runFrom_noClosedTarget (cfg : Config) (evs : List Event) :
    ∀ s : MState, Inv s → (∀ p ∈ s.transitions, p.2 ≠ ConnState.closed) →
      Event.manualClose ∉ evs →
      ∀ p ∈ (runFrom cfg s evs).transitions, p.2 ≠ ConnState.closed := by
  induction evs with
  | nil => intro s _ ht _; exact ht
  | cons e t ih =>
      intro s h ht hmc
      have hne : e ≠ Event.manualClose := by
        intro hh
        exact hmc (hh ▸ List.mem_cons_self e t)
      obtain ⟨hi, δ, hδeq, _, hδnc⟩ := step_sound cfg s e h
      have ht' : ∀ p ∈ (step cfg s e).transitions, p.2 ≠ ConnState.closed := by
        intro p hp
        rw [hδeq] at hp
        rcases List.mem_append.mp hp with h1 | h2
        · exact ht p h1
        · exact hδnc hne p h2
      exact ih (step cfg s e) hi ht' (fun hm => hmc (List.mem_cons_of_mem e hm))

theorem run_inv (cfg : Config) (evs : List Event) : Inv (run cfg evs) :=
  (runFrom_sound cfg evs (initialState cfg) (inv_initial cfg)
    (by rw [initialState_transitions]; intro p hp; exact absurd hp (List.not_mem_nil p))).1


/-- C4 counterexample: the very first close event (a connect attempt whose
socket drops before opening, e.g. on connect-timeout) produces the
transition `Connecting 0 → Disconnected`, which the claimed relation does
not contain. -/
theorem transitionRelation_counterexample :
    (run cfgDefault0 [.wsCloseEvt]).transitions.head? =
      some (ConnState.connecting 0, ConnState.disconnected none) ∧
    claimedTransition (ConnState.connecting 0) (ConnState.disconnected none) = false :=
  ⟨rfl, rfl⟩

/-- C4 amended: with `Connecting → Disconnected` added to the relation
(the transition taken when a connect attempt fails before opening), every
transition recorded over every event trace is in the relation, no recorded
transition has source `Closed`, and a transition into `Closed` occurs only
in traces containing an explicit `close()` call. -/
theorem transitionRelation_amended (cfg : Config) (evs : List Event) :
    (∀ p ∈ (run cfg evs).transitions,
        amendedTransition p.1 p.2 = true ∧ p.1 ≠ ConnState.closed) ∧
    (Event.manualClose ∉ evs → ∀ p ∈ (run cfg evs).transitions, p.2 ≠ ConnState.closed) := by
  constructor
  · exact (runFrom_sound cfg evs (initialState cfg) (inv_initial cfg)
      (by rw [initialState_transitions]; intro p hp; exact absurd hp (List.not_mem_nil p))).2
  · intro hmc
    exact runFrom_noClosedTarget cfg evs (initialState cfg) (inv_initial cfg)
      (by rw [initialState_transitions]; intro p hp; exact absurd hp (List.not_mem_nil p)) hmc

/-- Witness for C4 amended at the concrete trace `[wsCloseEvt]`. -/
theorem transitionRelation_amended_witness :
    amendedTransition (ConnState.connecting 0) (ConnState.disconnected none) = true ∧
    (ConnState.connecting 0) ≠ ConnState.closed ∧
    (ConnState.disconnected none) ≠ ConnState.closed := by
  have h := transitionRelation_amended cfgDefault0 [.wsCloseEvt]
  have hm : (ConnState.connecting 0, ConnState.disconnected none) ∈
      (run cfgDefault0 [.wsCloseEvt]).transitions := by
    have he : (run cfgDefault0 [.wsCloseEvt]).transitions =
        [(ConnState.connecting 0, ConnState.disconnected none),
          (ConnState.disconnected none, ConnState.reconnecting 1 0)] := rfl
    rw [he]
    exact List.mem_cons_self _ _
  have h1 := h.1 _ hm
  have h2 := h.2 (by simp) _ hm
  exact ⟨h1.1, h1.2, h2⟩


theorem step_closed_fields (cfg : Config) (s : MState) (e : Event)
    (h : Inv s) (hc : s.isClosedCore = true) :
    (step cfg s e).cSession = s.cSession ∧ (step cfg s e).tSession = s.tSession ∧
    (step cfg s e).disposeLog = s.disposeLog ∧ (step cfg s e).isClosedCore = true := by
  obtain ⟨h1, h2, h3, h4, h5, h6, h7⟩ := h
  obtain ⟨hcl, _, _⟩ := h7 hc
  obtain ⟨_, hrt, hct, hwsc⟩ := h1 hcl
  cases e with
  | wsOpenEvt =>
      have hg : (!s.wsOpen && !s.wsClosing && !s.wsCloseDelivered && s.currentWsSome) = false := by
        simp [hwsc]
      simp [step, stepE, hg, hc]
  | wsCloseEvt =>
      by_cases hwd : s.wsCloseDelivered = true
      · simp [step, stepE, hwd, hc]
      · have hwdf : s.wsCloseDelivered = false := by simpa using hwd
        have hstep : step cfg s .wsCloseEvt = { s with wsCloseDelivered := true } := by
          simp [step, stepE, handleCloseE, hwdf, hcl]
        rw [hstep]
        exact ⟨rfl, rfl, rfl, hc⟩
  | connTimeoutFire => simp [step, stepE, hct, hc]
  | reconnectTimer => simp [step, stepE, hrt, hc]
  | mount =>
      have hg : ¬(s.cSession = none ∧ s.isClosedCore = false) := by
        intro hh
        exact Bool.noConfusion (hc.symm.trans hh.2)
      simp [step, stepE, providerMount, hg, hc]
  | manualClose => simp [step, stepE, coreClose, hc]

theorem closed_freeze (cfg : Config) (evs : List Event) :
    ∀ s : MState, Inv s → s.isClosedCore = true →
      (runFrom cfg s evs).cSession = s.cSession ∧
      (runFrom cfg s evs).tSession = s.tSession ∧
      (runFrom cfg s evs).disposeLog = s.disposeLog ∧
      Inv (runFrom cfg s evs) ∧ (runFrom cfg s evs).isClosedCore = true := by
  induction evs with
  | nil => intro s h hc; exact ⟨rfl, rfl, rfl, h, hc⟩
  | cons e t ih =>
      intro s h hc
      obtain ⟨hcs, hts, hdl, hic⟩ := step_closed_fields cfg s e h hc
      have hi : Inv (step cfg s e) := (step_sound cfg s e h).1
      obtain ⟨ih1, ih2, ih3, ih4, ih5⟩ := ih (step cfg s e) hi hic
      exact ⟨ih1.trans hcs, ih2.trans hts, ih3.trans hdl, ih4, ih5⟩

theorem step_manualClose_effects (cfg : Config) (s : MState) (h : Inv s)
    (k : Nat) (hcs : s.cSession = some k) :
    (step cfg s .manualClose).cSession = some k ∧
    (step cfg s .manualClose).tSession = s.tSession ∧
    k ∈ (step cfg s .manualClose).disposeLog ∧
    s.tSession ∈ (step cfg s .manualClose).disposeLog := by
  obtain ⟨h1, h2, h3, h4, h5, h6, h7⟩ := h
  by_cases hic : s.isClosedCore = true
  · rw [step_manualClose_of_closed cfg s hic]
    obtain ⟨_, hmem, hts⟩ := h7 hic
    exact ⟨hcs, rfl, hmem k hcs, hts⟩
  · have hicf : s.isClosedCore = false := by simpa using hic
    have hws : s.currentWsSome = true := h5 hicf
    have hstep : step cfg s .manualClose =
        { s with
          isClosedCore := true, reconnectTimeout := false,
          connectionTimeout := false, wsClosing := true, currentWsSome := false,
          disposeLog := s.disposeLog ++ [s.tSession, k],
          connState := ConnState.closed,
          transitions := s.transitions ++ [(s.connState, ConnState.closed)] } := by
      simp [step, stepE, coreClose, transportClose, setCS, hicf, hws, hcs]
    rw [hstep]
    refine ⟨hcs, rfl, ?_, ?_⟩
    · simp
    · simp

/-- C9: after `close()` the session binding is retained, not nulled: if a
provider had bound a session `k` before the close, then after `close()` and
any further events the provider context still delivers `some k` (so reads
through the stable handle never see `null` and never hit the
missing-provider error), that session `k` has been disposed (so calls on it
fail with the disposed session error), the transport binding is similarly
retained and disposed, and the machine is in the terminal `Closed` state. -/
theorem closeRetainsBinding (cfg : Config) (evs evs' : List Event) (k : Nat)
    (h : (run cfg evs).cSession = some k) :
    contextValue (run cfg (evs ++ Event.manualClose :: evs')) = some k ∧
    k ∈ (run cfg (evs ++ Event.manualClose :: evs')).disposeLog ∧
    (run cfg (evs ++ Event.manualClose :: evs')).tSession = (run cfg evs).tSession ∧
    (run cfg evs).tSession ∈ (run cfg (evs ++ Event.manualClose :: evs')).disposeLog ∧
    (run cfg (evs ++ Event.manualClose :: evs')).connState = ConnState.closed := by
  have hrw : run cfg (evs ++ Event.manualClose :: evs') =
      runFrom cfg (step cfg (run cfg evs) .manualClose) evs' := by
    rw [run_append]
    rfl
  have hInv : Inv (run cfg evs) := run_inv cfg evs
  have heff := step_manualClose_effects cfg (run cfg evs) hInv k h
  have hic1 : (step cfg (run cfg evs) .manualClose).isClosedCore = true :=
    step_manualClose_isClosedCore cfg (run cfg evs)
  have hInv1 : Inv (step cfg (run cfg evs) .manualClose) :=
    (step_sound cfg (run cfg evs) .manualClose hInv).1
  obtain ⟨hcse, htse, hdle, hInvF, hicF⟩ :=
    closed_freeze cfg evs' (step cfg (run cfg evs) .manualClose) hInv1 hic1
  rw [hrw]
  refine ⟨?_, ?_, ?_, ?_, ?_⟩
  · rw [contextValue, hcse]
    exact heff.1
  · rw [hdle]
    exact heff.2.2.1
  · rw [htse]
    exact heff.2.1
  · rw [hdle]
    exact heff.2.2.2
  · exact (hInvF.2.2.2.2.2.2 hicF).1

/-- Witness for C9: a provider mounts (binding session 0), `close()` is
called, then a late socket close event arrives. -/
theorem closeRetainsBinding_witness :
    contextValue (run cfgDefault0 ([.mount] ++ Event.manualClose :: [.wsCloseEvt])) =
      some 0 ∧
    0 ∈ (run cfgDefault0 ([.mount] ++ Event.manualClose :: [.wsCloseEvt])).disposeLog ∧
    (run cfgDefault0 ([.mount] ++ Event.manualClose :: [.wsCloseEvt])).tSession =
      (run cfgDefault0 [.mount]).tSession ∧
    (run cfgDefault0 [.mount]).tSession ∈
      (run cfgDefault0 ([.mount] ++ Event.manualClose :: [.wsCloseEvt])).disposeLog ∧
    (run cfgDefault0 ([.mount] ++ Event.manualClose :: [.wsCloseEvt])).connState =
      ConnState.closed :=
  closeRetainsBinding cfgDefault0 [.mount] [.wsCloseEvt] 0 rfl


theorem failTrace_succ (n : Nat) :
    failTrace (n + 1) = failTrace n ++ [Event.reconnectTimer, Event.wsCloseEvt] := by
  simp [failTrace, failRounds]

theorem failInv (cfg : Config) :
    ∀ k, k < cfg.retries →
      (run cfg (failTrace k)).retryCount = k + 1 ∧
      (run cfg (failTrace k)).isReconnecting = true ∧
      (run cfg (failTrace k)).reconnectTimeout = true ∧
      (run cfg (failTrace k)).connectionTimeout = false ∧
      (run cfg (failTrace k)).connState =
        ConnState.reconnecting (k + 1) (cfg.backoff (k + 1)) ∧
      (run cfg (failTrace k)).wsCloseDelivered = true ∧
      (run cfg (failTrace k)).wsOpen = false ∧
      (run cfg (failTrace k)).wsClosing = false ∧
      (run cfg (failTrace k)).currentWsSome = true ∧
      (run cfg (failTrace k)).scheduledDelays =
        (List.range (k + 1)).map (fun i => cfg.backoff (i + 1)) ∧
      (run cfg (failTrace k)).onReconnectFailedCount = 0 := by
  intro k
  induction k with
  | zero =>
      intro h0
      refine ⟨?_, ?_, ?_, ?_, ?_, ?_, ?_, ?_, ?_, ?_, ?_⟩ <;>
        simp [run, runFrom, failTrace, failRounds, step, stepE, handleCloseE, setCS,
          noThrows, initialState, initWebsocket, h0, List.range_succ]
  | succ k ih =>
      intro hk
      have hck : k < cfg.retries := Nat.lt_of_succ_lt hk
      obtain ⟨hrc, hir, hrt, hct, hcs, hwd, hwo, hwc, hws, hsd, hof⟩ := ih hck
      rw [failTrace_succ, run_append]
      have h1 : step cfg (run cfg (failTrace k)) .reconnectTimer =
          { run cfg (failTrace k) with
            isReconnecting := false, reconnectTimeout := false,
            disposeLog := (run cfg (failTrace k)).disposeLog ++
              [(run cfg (failTrace k)).tSession],
            currentWsSome := true, wsOpen := false, wsClosing := false,
            wsCloseDelivered := false,
            connState := ConnState.connecting (run cfg (failTrace k)).retryCount,
            transitions :=
              (run cfg (failTrace k)).transitions ++
                [((run cfg (failTrace k)).connState,
                  ConnState.connecting (run cfg (failTrace k)).retryCount)],
            connectionTimeout := true,
            tSession := (run cfg (failTrace k)).sessionsCreated,
            sessionsCreated := (run cfg (failTrace k)).sessionsCreated + 1 } := by
        simp [step, stepE, hrt, reconnectTimerFire, initWebsocket, setCS]
      have key : runFrom cfg (run cfg (failTrace k))
            [Event.reconnectTimer, Event.wsCloseEvt] =
          step cfg (step cfg (run cfg (failTrace k)) Event.reconnectTimer)
            Event.wsCloseEvt := rfl
      rw [key, h1]
      refine ⟨?_, ?_, ?_, ?_, ?_, ?_, ?_, ?_, ?_, ?_, ?_⟩ <;>
        simp [step, stepE, handleCloseE, setCS, noThrows, hrc, hk, hsd, hof,
          List.range_succ]

theorem frozen_step (cfg : Config) (s : MState) (e : Event)
    (h1 : s.wsCloseDelivered = true) (h2 : s.reconnectTimeout = false)
    (h3 : s.connectionTimeout = false) :
    (step cfg s e).scheduledDelays = s.scheduledDelays ∧
    (step cfg s e).onReconnectFailedCount = s.onReconnectFailedCount ∧
    (step cfg s e).wsCloseDelivered = true ∧
    (step cfg s e).reconnectTimeout = false ∧
    (step cfg s e).connectionTimeout = false := by
  cases e with
  | wsOpenEvt => simp [step, stepE, h1, h2, h3]
  | wsCloseEvt => simp [step, stepE, h1, h2, h3]
  | connTimeoutFire => simp [step, stepE, h1, h2, h3]
  | reconnectTimer => simp [step, stepE, h1, h2, h3]
  | mount =>
      by_cases hm : s.cSession = none ∧ s.isClosedCore = false <;>
        simp [step, stepE, providerMount, hm, h1, h2, h3]
  | manualClose =>
      by_cases hic : s.isClosedCore = true
      · simp [step, stepE, coreClose, hic, h1, h2, h3]
      · have hicf : s.isClosedCore = false := by simpa using hic
        rcases hcs : s.cSession with _ | k <;>
        rcases hws : s.currentWsSome with _ | _ <;>
          simp [step, stepE, coreClose, transportClose, setCS, hicf, hcs, hws, h1, h2, h3]

theorem frozen_suffix (cfg : Config) (evs : List Event) :
    ∀ s : MState, s.wsCloseDelivered = true → s.reconnectTimeout = false →
      s.connectionTimeout = false →
      (runFrom cfg s evs).scheduledDelays = s.scheduledDelays ∧
      (runFrom cfg s evs).onReconnectFailedCount = s.onReconnectFailedCount := by
  induction evs with
  | nil => intro s _ _ _; exact ⟨rfl, rfl⟩
  | cons e t ih =>
      intro s h1 h2 h3
      obtain ⟨f1, f2, f3, f4, f5⟩ := frozen_step cfg s e h1 h2 h3
      obtain ⟨g1, g2⟩ := ih (step cfg s e) f3 f4 f5
      exact ⟨g1.trans f1, g2.trans f2⟩


/-- C2: starting from retry counter 0, along the trace in which every
connection attempt fails, the lifecycle manager schedules exactly
`cfg.retries` reconnect attempts, the Nth with delay `backoffStrategy(N)`
(`scheduledDelays` is exactly `[backoff 1, …, backoff retries]`); on the
next failure, with the counter at `retries`, it transitions to
`Disconnected{reason: "Max retries reached"}`, has invoked
`onReconnectFailed` exactly once, leaves no reconnect timer armed, and no
continuation of the trace ever schedules another reconnect or fires
`onReconnectFailed` again. -/
theorem reconnectSchedule (cfg : Config) :
    (run cfg (failTrace cfg.retries)).scheduledDelays =
      (List.range cfg.retries).map (fun i => cfg.backoff (i + 1)) ∧
    (run cfg (failTrace cfg.retries)).onReconnectFailedCount = 1 ∧
    (run cfg (failTrace cfg.retries)).connState =
      ConnState.disconnected (some "Max retries reached") ∧
    (run cfg (failTrace cfg.retries)).reconnectTimeout = false ∧
    ∀ evs' : List Event,
      (run cfg (failTrace cfg.retries ++ evs')).scheduledDelays =
        (List.range cfg.retries).map (fun i => cfg.backoff (i + 1)) ∧
      (run cfg (failTrace cfg.retries ++ evs')).onReconnectFailedCount = 1 := by
  have main :
      (run cfg (failTrace cfg.retries)).scheduledDelays =
        (List.range cfg.retries).map (fun i => cfg.backoff (i + 1)) ∧
      (run cfg (failTrace cfg.retries)).onReconnectFailedCount = 1 ∧
      (run cfg (failTrace cfg.retries)).connState =
        ConnState.disconnected (some "Max retries reached") ∧
      (run cfg (failTrace cfg.retries)).reconnectTimeout = false ∧
      (run cfg (failTrace cfg.retries)).wsCloseDelivered = true ∧
      (run cfg (failTrace cfg.retries)).connectionTimeout = false := by
    rcases hR : cfg.retries with _ | S
    · have h0 : ¬(0 < cfg.retries) := by omega
      refine ⟨?_, ?_, ?_, ?_, ?_, ?_⟩ <;>
        simp [run, runFrom, failTrace, failRounds, step, stepE, handleCloseE, setCS,
          noThrows, initialState, initWebsocket, h0]
    · have hS : S < cfg.retries := by omega
      have hlt : ¬(S + 1 < cfg.retries) := by omega
      obtain ⟨hrc, hir, hrt, hct, hcs, hwd, hwo, hwc, hws, hsd, hof⟩ := failInv cfg S hS
      rw [failTrace_succ, run_append]
      have h1 : step cfg (run cfg (failTrace S)) .reconnectTimer =
          { run cfg (failTrace S) with
            isReconnecting := false, reconnectTimeout := false,
            disposeLog := (run cfg (failTrace S)).disposeLog ++
              [(run cfg (failTrace S)).tSession],
            currentWsSome := true, wsOpen := false, wsClosing := false,
            wsCloseDelivered := false,
            connState := ConnState.connecting (run cfg (failTrace S)).retryCount,
            transitions :=
              (run cfg (failTrace S)).transitions ++
                [((run cfg (failTrace S)).connState,
                  ConnState.connecting (run cfg (failTrace S)).retryCount)],
            connectionTimeout := true,
            tSession := (run cfg (failTrace S)).sessionsCreated,
            sessionsCreated := (run cfg (failTrace S)).sessionsCreated + 1 } := by
        simp [step, stepE, hrt, reconnectTimerFire, initWebsocket, setCS]
      have key : runFrom cfg (run cfg (failTrace S))
            [Event.reconnectTimer, Event.wsCloseEvt] =
          step cfg (step cfg (run cfg (failTrace S)) Event.reconnectTimer)
            Event.wsCloseEvt := rfl
      rw [key, h1]
      refine ⟨?_, ?_, ?_, ?_, ?_, ?_⟩ <;>
        simp [step, stepE, handleCloseE, setCS, noThrows, hrc, hlt, hsd, hof, hR]
  obtain ⟨m1, m2, m3, m4, m5, m6⟩ := main
  refine ⟨m1, m2, m3, m4, ?_⟩
  intro evs'
  rw [run_append]
  obtain ⟨g1, g2⟩ := frozen_suffix cfg evs' (run cfg (failTrace cfg.retries)) m5 m4 m6
  rw [g1, g2]
  exact ⟨m1, m2⟩



/-- Witness for C3 amended at a concrete mounted-then-closed run. -/
theorem closeIdem_amended_witness :
    run cfgDefault0 ([Event.mount] ++ [Event.manualClose, Event.manualClose]) =
      run cfgDefault0 ([Event.mount] ++ [Event.manualClose]) :=
  closeIdem_amended.1 cfgDefault0 [Event.mount]

/-- Witness for C2 at the default-retries configuration with zero backoff. -/
theorem reconnectSchedule_witness :
    (run cfgDefault0 (failTrace cfgDefault0.retries)).onReconnectFailedCount = 1 ∧
    (run cfgDefault0 (failTrace cfgDefault0.retries)).connState =
      ConnState.disconnected (some "Max retries reached") :=
  ⟨(reconnectSchedule cfgDefault0).2.1, (reconnectSchedule cfgDefault0).2.2.1⟩

end ReactCapnweb
